import Mathlib

/-!
Verification development for the task-tracking service in `src/index.ts`
(a unified HTTP + MCP server over a JSON-file task store).

The embedding models:
* the `Task` record (`interface Task`),
* the persistence layer `loadTasks` / `saveTasks` (file contents are an
  `Option String`: `none` when `TASKS_FILE` does not exist),
* the JSON serialization `JSON.stringify(tasks, null, 2)` and the parse
  performed by `JSON.parse` on load (the parser recognizes the canonical
  pretty-printed format that the program itself writes; any other contents
  fail to parse, which corresponds to the `catch` branch of `loadTasks`),
* the five `taskAPI` operations as explicit state passing on the file
  contents,
* both transport adapters (the Express route handlers and the MCP
  `CallToolRequestSchema` handler) as pure response-computing functions.
-/

namespace TaskStore

/-- The `Task` record of `src/index.ts` (`interface Task`). -/
structure Task where
  id : String
  title : String
  completed : Bool
  createdAt : String
deriving Repr, DecidableEq

/-! ### JSON serialization: `JSON.stringify(tasks, null, 2)` -/

/-- Lowercase hexadecimal digit, as emitted by `JSON.stringify` in
`\u00XX` escapes. -/
def hexDigitChar (n : Nat) : Char :=
  if n < 10 then Char.ofNat (48 + n) else Char.ofNat (87 + n)

/-- The escaping `JSON.stringify` applies inside string literals: `"` and
`\` are backslash-escaped, the control characters with short escapes use
them, the remaining control characters below U+0020 become `\u00XX`, and
every other character is emitted verbatim. -/
def escapeChar (c : Char) : List Char :=
  if c = '\"' then ['\\', '\"']
  else if c = '\\' then ['\\', '\\']
  else if c = '\x08' then ['\\', 'b']
  else if c = '\x09' then ['\\', 't']
  else if c = '\x0a' then ['\\', 'n']
  else if c = '\x0c' then ['\\', 'f']
  else if c = '\x0d' then ['\\', 'r']
  else if c.toNat < 32 then
    ['\\', 'u', '0', '0', hexDigitChar (c.toNat / 16), hexDigitChar (c.toNat % 16)]
  else [c]

/-- String-literal body escaping, character by character. -/
def escapeString : List Char → List Char
  | [] => []
  | c :: s => escapeChar c ++ escapeString s

/-- Literal fragment `[\n` opening a non-empty pretty-printed array. -/
def arrOpen : List Char := "[\n".data

/-- Literal `[]`: `JSON.stringify([], null, 2)`. -/
def arrEmpty : List Char := "[]".data

/-- Literal fragment `\n]` closing a non-empty pretty-printed array. -/
def arrClose : List Char := "\n]".data

/-- Literal fragment `,\n` between array elements. -/
def arrSep : List Char := ",\n".data

/-- Literal fragment opening a task object up to the `id` value. -/
def objOpen : List Char := "  \x7b\n    \"id\": \"".data

/-- Literal fragment between the `id` value and the `title` value. -/
def litTitle : List Char := ",\n    \"title\": \"".data

/-- Literal fragment between the `title` value and the `completed` value. -/
def litCompleted : List Char := ",\n    \"completed\": ".data

/-- Literal fragment between the `completed` value and the `createdAt`
value. -/
def litCreatedAt : List Char := ",\n    \"createdAt\": \"".data

/-- Literal fragment closing a task object. -/
def objClose : List Char := "\n  \x7d".data

/-- Literal `true`. -/
def trueChars : List Char := "true".data

/-- Literal `false`. -/
def falseChars : List Char := "false".data

/-- JSON booleans. -/
def printBool (b : Bool) : List Char := if b then trueChars else falseChars

/-- One task object as `JSON.stringify(tasks, null, 2)` prints it inside
the array (element indent 2, property indent 4). -/
def printTask (t : Task) : List Char :=
  objOpen ++ (escapeString t.id.data ++ '\"' ::
    (litTitle ++ (escapeString t.title.data ++ '\"' ::
      (litCompleted ++ (printBool t.completed ++
        (litCreatedAt ++ (escapeString t.createdAt.data ++ '\"' :: objClose)))))))

/-- Remaining elements of a non-empty array, each preceded by `,\n`,
followed by the closing `\n]`. -/
def printTasksTail : List Task → List Char
  | [] => arrClose
  | t :: ts => arrSep ++ (printTask t ++ printTasksTail ts)

/-- Output of `JSON.stringify(tasks, null, 2)` as a character list. -/
def stringifyTasksChars : List Task → List Char
  | [] => arrEmpty
  | t :: ts => arrOpen ++ (printTask t ++ printTasksTail ts)

/-- Output of `JSON.stringify(tasks, null, 2)` as a string. -/
def stringifyTasks (ts : List Task) : String :=
  String.mk (stringifyTasksChars ts)

/-! ### Parsing: `JSON.parse` on the stored file

`loadTasks` feeds the raw file contents to `JSON.parse` and casts the
result to `Task[]`. The model parses the canonical format written by
`saveTasks`; contents that do not parse correspond to the `JSON.parse`
exception caught in `loadTasks`. -/

/-- Value of a hexadecimal digit character (JSON accepts both cases). -/
def hexVal (c : Char) : Option Nat :=
  if 48 ≤ c.toNat ∧ c.toNat ≤ 57 then some (c.toNat - 48)
  else if 97 ≤ c.toNat ∧ c.toNat ≤ 102 then some (c.toNat - 87)
  else if 65 ≤ c.toNat ∧ c.toNat ≤ 70 then some (c.toNat - 55)
  else none

/-- Parse the body of a JSON string literal (the opening quote already
consumed), returning the unescaped content and the input remaining after
the closing quote. -/
def parseStrBody : List Char → Option (List Char × List Char)
  | [] => none
  | c :: rest =>
    if c = '\"' then some ([], rest)
    else if c = '\\' then
      match rest with
      | [] => none
      | e :: rest2 =>
        if e = '\"' then (parseStrBody rest2).map (fun p => ('\"' :: p.1, p.2))
        else if e = '\\' then (parseStrBody rest2).map (fun p => ('\\' :: p.1, p.2))
        else if e = 'b' then (parseStrBody rest2).map (fun p => ('\x08' :: p.1, p.2))
        else if e = 't' then (parseStrBody rest2).map (fun p => ('\x09' :: p.1, p.2))
        else if e = 'n' then (parseStrBody rest2).map (fun p => ('\x0a' :: p.1, p.2))
        else if e = 'f' then (parseStrBody rest2).map (fun p => ('\x0c' :: p.1, p.2))
        else if e = 'r' then (parseStrBody rest2).map (fun p => ('\x0d' :: p.1, p.2))
        else if e = 'u' then
          match rest2 with
          | h1 :: h2 :: h3 :: h4 :: rest3 =>
            match hexVal h1, hexVal h2, hexVal h3, hexVal h4 with
            | some a, some b, some c2, some d =>
              (parseStrBody rest3).map
                (fun p => (Char.ofNat (((a * 16 + b) * 16 + c2) * 16 + d) :: p.1, p.2))
            | _, _, _, _ => none
          | _ => none
        else none
    else (parseStrBody rest).map (fun p => (c :: p.1, p.2))

/-- Consume an expected literal fragment. -/
def parseLit (lit input : List Char) : Option (List Char) :=
  if input.take lit.length = lit then some (input.drop lit.length) else none

/-- Parse a JSON boolean. -/
def parseBool (input : List Char) : Option (Bool × List Char) :=
  match parseLit trueChars input with
  | some r => some (true, r)
  | none =>
    match parseLit falseChars input with
    | some r => some (false, r)
    | none => none

/-- Parse one task object in the canonical pretty-printed layout. -/
def parseTask (input : List Char) : Option (Task × List Char) :=
  match parseLit objOpen input with
  | none => none
  | some r1 =>
    match parseStrBody r1 with
    | none => none
    | some (idv, r2) =>
      match parseLit litTitle r2 with
      | none => none
      | some r3 =>
        match parseStrBody r3 with
        | none => none
        | some (titlev, r4) =>
          match parseLit litCompleted r4 with
          | none => none
          | some r5 =>
            match parseBool r5 with
            | none => none
            | some (bv, r6) =>
              match parseLit litCreatedAt r6 with
              | none => none
              | some r7 =>
                match parseStrBody r7 with
                | none => none
                | some (cav, r8) =>
                  match parseLit objClose r8 with
                  | none => none
                  | some r9 => some (⟨String.mk idv, String.mk titlev, bv, String.mk cav⟩, r9)

/-- Parse the remaining elements of a non-empty array: either the closing
`\n]` (and exactly that) or a `,\n` separator followed by another task.
The fuel bounds the number of elements; each iteration consumes at least
the separator, so `input.length + 1` is always sufficient. -/
def parseMoreTasks : Nat → List Task → List Char → Option (List Task)
  | 0, _, _ => none
  | fuel + 1, acc, input =>
    if input = arrClose then some acc.reverse
    else
      match parseLit arrSep input with
      | none => none
      | some r =>
        match parseTask r with
        | none => none
        | some (t, r2) => parseMoreTasks fuel (t :: acc) r2

/-- Parse a whole stored file in the canonical format. -/
def parseTasksChars (cs : List Char) : Option (List Task) :=
  if cs = arrEmpty then some []
  else
    match parseLit arrOpen cs with
    | none => none
    | some r =>
      match parseTask r with
      | none => none
      | some (t, r2) => parseMoreTasks (r2.length + 1) [t] r2

/-- Model of `JSON.parse` on the stored file, restricted to the canonical
format the program writes. -/
def parseTasks (s : String) : Option (List Task) :=
  parseTasksChars s.data

/-! ### The store: `loadTasks` / `saveTasks`

The contents of `TASKS_FILE` are an `Option String`: `none` when the file
does not exist. -/

/-- Function `loadTasks()`: if the file exists its contents go through
`JSON.parse`; a parse exception is caught (and logged) and the function
returns `[]`; a missing file also yields `[]`. -/
def loadTasks (file : Option String) : List Task :=
  match file with
  | none => []
  | some s =>
    match parseTasks s with
    | some ts => ts
    | none => []

/-- Function `saveTasks(tasks)`: overwrite the file with
`JSON.stringify(tasks, null, 2)`. -/
def saveTasks (ts : List Task) : Option String :=
  some (stringifyTasks ts)

/-! ### Clock

`Date.now()` is modelled as a parameter `now : Nat` (milliseconds since
the Unix epoch); `createTask` derives both the id and the timestamp from
it. -/

/-- Decimal digits padded to width 2. -/
def pad2 (n : Nat) : String :=
  if n < 10 then String.append "0" (Nat.repr n) else Nat.repr n

/-- Decimal digits padded to width 3. -/
def pad3 (n : Nat) : String :=
  if n < 10 then String.append "00" (Nat.repr n)
  else if n < 100 then String.append "0" (Nat.repr n)
  else Nat.repr n

/-- Decimal digits padded to width 4. -/
def pad4 (n : Nat) : String :=
  if n < 10 then String.append "000" (Nat.repr n)
  else if n < 100 then String.append "00" (Nat.repr n)
  else if n < 1000 then String.append "0" (Nat.repr n)
  else Nat.repr n

/-- Gregorian civil date (year, month, day) from days since 1970-01-01. -/
def civilFromDays (z : Nat) : Nat × Nat × Nat :=
  let z2 := z + 719468
  let era := z2 / 146097
  let doe := z2 % 146097
  let yoe := (doe - doe / 1460 + doe / 36524 - doe / 146096) / 365
  let y := yoe + era * 400
  let doy := doe - (365 * yoe + yoe / 4 - yoe / 100)
  let mp := (5 * doy + 2) / 153
  let d := doy - (153 * mp + 2) / 5 + 1
  let m := if mp < 10 then mp + 3 else mp - 9
  (if m ≤ 2 then y + 1 else y, m, d)

/-- Modelled from the spec: `new Date(ms).toISOString()` (a JS builtin,
not part of src/) — the "creation timestamp in a standard textual
timestamp format", `YYYY-MM-DDTHH:mm:ss.sssZ`. -/
def toISOString (ms : Nat) : String :=
  let days := ms / 86400000
  let msDay := ms % 86400000
  let ymd := civilFromDays days
  let hh := msDay / 3600000
  let mi := msDay % 3600000 / 60000
  let ss := msDay % 60000 / 1000
  let mss := msDay % 1000
  String.append
    (String.append
      (String.append
        (String.append
          (String.append
            (String.append (pad4 ymd.1) (String.append "-" (pad2 ymd.2.1)))
            (String.append "-" (pad2 ymd.2.2)))
          (String.append "T" (pad2 hh)))
        (String.append ":" (pad2 mi)))
      (String.append ":" (pad2 ss)))
    (String.append "." (String.append (pad3 mss) "Z"))

/-! ### The Task API (`taskAPI`)

Each operation loads the whole collection from the file, mutates an
in-memory copy if needed, and saves it back; mutating operations return
the new file contents alongside their result. -/

/-- Operation `taskAPI.createTask(title)`: builds the record with
`id: Date.now().toString()`, the given title, `completed: false`,
`createdAt: new Date().toISOString()`, pushes it onto the loaded
collection, saves, and returns it. -/
def createTask (now : Nat) (title : String) (file : Option String) :
    Task × Option String :=
  let tasks := loadTasks file
  let task : Task := ⟨Nat.repr now, title, false, toISOString now⟩
  (task, saveTasks (tasks ++ [task]))

/-- Operation `taskAPI.listTasks()`. -/
def listTasks (file : Option String) : List Task :=
  loadTasks file

/-- Operation `taskAPI.getTask(id)`: `tasks.find(t => t.id === id)`. -/
def getTask (id : String) (file : Option String) : Option Task :=
  (loadTasks file).find? (fun t => t.id == id)

/-- In-place effect of `task.completed = true` on the first element the
`find` call located. -/
def completeFirst (id : String) : List Task → List Task
  | [] => []
  | t :: ts =>
    if t.id == id then { t with completed := true } :: ts
    else t :: completeFirst id ts

/-- Operation `taskAPI.completeTask(id)`: find the task; if absent return `null`
without writing; otherwise set its `completed` to `true`, save the whole
collection, and return the updated record. -/
def completeTask (id : String) (file : Option String) :
    Option Task × Option String :=
  let tasks := loadTasks file
  match tasks.find? (fun t => t.id == id) with
  | none => (none, file)
  | some t =>
    (some { t with completed := true }, saveTasks (completeFirst id tasks))

/-- Effect of `tasks.splice(index, 1)` at the index found by
`findIndex`: drop the first matching element. -/
def removeFirst (id : String) : List Task → List Task
  | [] => []
  | t :: ts => if t.id == id then ts else t :: removeFirst id ts

/-- Operation `taskAPI.deleteTask(id)`: `findIndex`; if `-1` return `null` without
writing; otherwise splice the record out, save the remainder, and return
the removed record. -/
def deleteTask (id : String) (file : Option String) :
    Option Task × Option String :=
  let tasks := loadTasks file
  match tasks.find? (fun t => t.id == id) with
  | none => (none, file)
  | some t => (some t, saveTasks (removeFirst id tasks))

/-! ### HTTP adapter (`startHttpServer` route handlers) -/

/-- Shape of the JSON bodies the Express handlers send. -/
inductive RespBody where
  | successList (data : List Task) (count : Nat)
  | successTask (data : Task)
  | failure (error : String)
deriving Repr, DecidableEq

/-- An HTTP response: status code plus JSON body. -/
structure HttpResponse where
  status : Nat
  body : RespBody
deriving Repr, DecidableEq

/-- Route `GET /tasks`. -/
def httpListTasks (file : Option String) : HttpResponse × Option String :=
  let allTasks := listTasks file
  (⟨200, RespBody.successList allTasks allTasks.length⟩, file)

/-- Route `POST /tasks`. `req.body.title` is `none` when the field is absent;
the handler rejects with 400 whenever `!title` holds (absent or empty
string). -/
def httpCreateTask (now : Nat) (title : Option String) (file : Option String) :
    HttpResponse × Option String :=
  match title with
  | none => (⟨400, RespBody.failure "Title is required"⟩, file)
  | some t =>
    if t = "" then (⟨400, RespBody.failure "Title is required"⟩, file)
    else
      let r := createTask now t file
      (⟨201, RespBody.successTask r.1⟩, r.2)

/-- Route `GET /tasks/:id`. -/
def httpGetTask (id : String) (file : Option String) :
    HttpResponse × Option String :=
  match getTask id file with
  | none => (⟨404, RespBody.failure "Task not found"⟩, file)
  | some t => (⟨200, RespBody.successTask t⟩, file)

/-- Route `PATCH /tasks/:id/complete`. -/
def httpCompleteTask (id : String) (file : Option String) :
    HttpResponse × Option String :=
  let r := completeTask id file
  match r.1 with
  | none => (⟨404, RespBody.failure "Task not found"⟩, file)
  | some t => (⟨200, RespBody.successTask t⟩, r.2)

/-- Route `DELETE /tasks/:id`. -/
def httpDeleteTask (id : String) (file : Option String) :
    HttpResponse × Option String :=
  let r := deleteTask id file
  match r.1 with
  | none => (⟨404, RespBody.failure "Task not found"⟩, file)
  | some t => (⟨200, RespBody.successTask t⟩, r.2)

/-! ### MCP adapter (`CallToolRequestSchema` handler) -/

/-- Output of `JSON.stringify(task, null, 2)` for a single task at top level
(property indent 2), as embedded in the tool response texts. -/
def stringifyTask (t : Task) : String :=
  String.mk
    ("\x7b\n  \"id\": \"".data ++ (escapeString t.id.data ++ '\"' ::
      (",\n  \"title\": \"".data ++ (escapeString t.title.data ++ '\"' ::
        (",\n  \"completed\": ".data ++ (printBool t.completed ++
          (",\n  \"createdAt\": \"".data ++ (escapeString t.createdAt.data ++ '\"' ::
            "\n\x7d".data))))))))

/-- A tool-call result: the single text content item plus the `isError`
flag (absent on success, modelled as `false`). -/
structure ToolResponse where
  text : String
  isError : Bool
deriving Repr, DecidableEq

/-- A tool invocation with arguments of the declared input-schema types
(`title: string` for `create_task`; `id: string` for `get_task`,
`complete_task`, `delete_task`; `unknown` is any other tool name). The
`args.title as string` / `args.id as string` casts are modelled for
string-valued arguments, which is what each tool's schema requires. -/
inductive ToolCall where
  | createTask (title : String)
  | listTasks
  | getTask (id : String)
  | completeTask (id : String)
  | deleteTask (id : String)
  | unknown (name : String)
deriving Repr, DecidableEq

/-- The body of the `CallToolRequestSchema` handler after the missing
`args` check: the `switch (name)` statement. -/
def callTool (now : Nat) (call : ToolCall) (file : Option String) :
    ToolResponse × Option String :=
  match call with
  | ToolCall.createTask title =>
    let r := createTask now title file
    (⟨String.append "Task created successfully:\n" (stringifyTask r.1), false⟩, r.2)
  | ToolCall.listTasks =>
    let allTasks := listTasks file
    if allTasks.length > 0 then
      (⟨String.append "Found " (String.append (Nat.repr allTasks.length)
        (String.append " tasks:\n" (stringifyTasks allTasks))), false⟩, file)
    else (⟨"No tasks found", false⟩, file)
  | ToolCall.getTask id =>
    match getTask id file with
    | none =>
      (⟨String.append "Task with ID " (String.append id " not found"), true⟩, file)
    | some t => (⟨stringifyTask t, false⟩, file)
  | ToolCall.completeTask id =>
    let r := completeTask id file
    match r.1 with
    | none =>
      (⟨String.append "Task with ID " (String.append id " not found"), true⟩, file)
    | some t =>
      (⟨String.append "Task completed:\n" (stringifyTask t), false⟩, r.2)
  | ToolCall.deleteTask id =>
    let r := deleteTask id file
    match r.1 with
    | none =>
      (⟨String.append "Task with ID " (String.append id " not found"), true⟩, file)
    | some t =>
      (⟨String.append "Task deleted:\n" (stringifyTask t), false⟩, r.2)
  | ToolCall.unknown name =>
    (⟨String.append "Unknown tool: " name, true⟩, file)

/-- The whole `CallToolRequestSchema` handler: a request whose
`arguments` field is absent (`!args`) short-circuits with
`"No arguments provided"` and `isError: true` before the `switch`. -/
def handleToolRequest (now : Nat) (req : Option ToolCall) (file : Option String) :
    ToolResponse × Option String :=
  match req with
  | none => (⟨"No arguments provided", true⟩, file)
  | some call => callTool now call file

theorem hexVal_hexDigitChar : ∀ n < 16, hexVal (hexDigitChar n) = some n := by decide

theorem parseStrBody_cons (c : Char) (rest : List Char) :
    parseStrBody (c :: rest) =
      (if c = '\"' then some ([], rest)
       else if c = '\\' then
         match rest with
         | [] => none
         | e :: rest2 =>
           if e = '\"' then (parseStrBody rest2).map (fun p => ('\"' :: p.1, p.2))
           else if e = '\\' then (parseStrBody rest2).map (fun p => ('\\' :: p.1, p.2))
           else if e = 'b' then (parseStrBody rest2).map (fun p => ('\x08' :: p.1, p.2))
           else if e = 't' then (parseStrBody rest2).map (fun p => ('\x09' :: p.1, p.2))
           else if e = 'n' then (parseStrBody rest2).map (fun p => ('\x0a' :: p.1, p.2))
           else if e = 'f' then (parseStrBody rest2).map (fun p => ('\x0c' :: p.1, p.2))
           else if e = 'r' then (parseStrBody rest2).map (fun p => ('\x0d' :: p.1, p.2))
           else if e = 'u' then
             match rest2 with
             | h1 :: h2 :: h3 :: h4 :: rest3 =>
               match hexVal h1, hexVal h2, hexVal h3, hexVal h4 with
               | some a, some b, some c2, some d =>
                 (parseStrBody rest3).map
                   (fun p => (Char.ofNat (((a * 16 + b) * 16 + c2) * 16 + d) :: p.1, p.2))
               | _, _, _, _ => none
             | _ => none
           else none
       else (parseStrBody rest).map (fun p => (c :: p.1, p.2))) := by
  rw [parseStrBody.eq_def]

theorem parseStrBody_escape (s r : List Char) :
    parseStrBody (escapeString s ++ '\"' :: r) = some (s, r) := by
  induction s with
  | nil => rw [escapeString, List.nil_append, parseStrBody_cons]; simp
  | cons c s ih =>
    rw [escapeString, List.append_assoc]
    by_cases h1 : c = '\"'
    · subst h1; simp only [escapeChar, reduceIte]
      simp [parseStrBody_cons, ih]
    · by_cases h2 : c = '\\'
      · subst h2; simp only [escapeChar, reduceIte]
        simp [parseStrBody_cons, ih]
      · by_cases h3 : c = '\x08'
        · subst h3; simp only [escapeChar, reduceIte]
          simp [parseStrBody_cons, ih]
        · by_cases h4 : c = '\x09'
          · subst h4; simp only [escapeChar, reduceIte]
            simp [parseStrBody_cons, ih]
          · by_cases h5 : c = '\x0a'
            · subst h5; simp only [escapeChar, reduceIte]
              simp [parseStrBody_cons, ih]
            · by_cases h6 : c = '\x0c'
              · subst h6; simp only [escapeChar, reduceIte]
                simp [parseStrBody_cons, ih]
              · by_cases h7 : c = '\x0d'
                · subst h7; simp only [escapeChar, reduceIte]
                  simp [parseStrBody_cons, ih]
                · by_cases h8 : c.toNat < 32
                  · have e1 : hexVal (hexDigitChar (c.toNat / 16)) = some (c.toNat / 16) :=
                      hexVal_hexDigitChar _ (by omega)
                    have e2 : hexVal (hexDigitChar (c.toNat % 16)) = some (c.toNat % 16) :=
                      hexVal_hexDigitChar _ (by omega)
                    have h0 : hexVal '0' = some 0 := rfl
                    rw [escapeChar, if_neg h1, if_neg h2, if_neg h3, if_neg h4, if_neg h5,
                      if_neg h6, if_neg h7, if_pos h8]
                    simp only [List.cons_append, List.nil_append]
                    rw [parseStrBody_cons]
                    simp only [reduceIte]
                    simp [e1, e2, h0, ih]
                    have e3 : c.toNat / 16 * 16 + c.toNat % 16 = c.toNat := by omega
                    rw [e3, Char.ofNat_toNat]
                  · rw [escapeChar, if_neg h1, if_neg h2, if_neg h3, if_neg h4, if_neg h5,
                      if_neg h6, if_neg h7, if_neg h8]
                    simp only [List.cons_append, List.nil_append]
                    rw [parseStrBody_cons]
                    simp [h1, h2, ih]


theorem parseLit_append (lit r : List Char) : parseLit lit (lit ++ r) = some r := by
  simp [parseLit]

theorem parseBool_print (b : Bool) (r : List Char) :
    parseBool (printBool b ++ r) = some (b, r) := by
  cases b with
  | true => simp [printBool, parseBool, parseLit_append]
  | false =>
    have hfail : parseLit trueChars (falseChars ++ r) = none := by
      simp [parseLit, trueChars, falseChars]
    simp [printBool, parseBool, hfail, parseLit_append]

theorem parseTask_print (t : Task) (r : List Char) :
    parseTask (printTask t ++ r) = some (t, r) := by
  simp only [printTask, List.append_assoc, List.cons_append]
  simp [parseTask, parseLit_append, parseStrBody_escape, parseBool_print]

theorem printTasksTail_length (ts : List Task) :
    ts.length ≤ (printTasksTail ts).length := by
  induction ts with
  | nil => simp [printTasksTail]
  | cons t ts ih =>
    simp only [printTasksTail, List.length_append, List.length_cons]
    have : 1 ≤ (arrSep).length := by simp [arrSep]
    omega

theorem parseMoreTasks_print (ts : List Task) :
    ∀ (fuel : Nat) (acc : List Task), ts.length + 1 ≤ fuel →
      parseMoreTasks fuel acc (printTasksTail ts) = some (acc.reverse ++ ts) := by
  induction ts with
  | nil =>
    intro fuel acc h
    match fuel, h with
    | f + 1, _ => simp [printTasksTail, parseMoreTasks]
  | cons t ts ih =>
    intro fuel acc h
    match fuel, h with
    | f + 1, h =>
      have h2 : ts.length + 1 ≤ f := by simp at h; omega
      have hne : arrSep ++ (printTask t ++ printTasksTail ts) ≠ arrClose := by
        simp [arrSep, arrClose]
      rw [printTasksTail]
      rw [parseMoreTasks]
      simp only [if_neg hne, parseLit_append, parseTask_print]
      rw [ih f (t :: acc) h2]
      simp

theorem parseTasksChars_stringify (ts : List Task) :
    parseTasksChars (stringifyTasksChars ts) = some ts := by
  cases ts with
  | nil => simp [stringifyTasksChars, parseTasksChars, arrEmpty]
  | cons t ts =>
    have hne : arrOpen ++ (printTask t ++ printTasksTail ts) ≠ arrEmpty := by
      simp [arrOpen, arrEmpty]
    rw [stringifyTasksChars, parseTasksChars]
    simp only [if_neg hne, parseLit_append, parseTask_print]
    rw [parseMoreTasks_print ts ((printTasksTail ts).length + 1) [t]
      (by have := printTasksTail_length ts; omega)]
    simp

theorem loadTasks_saveTasks (ts : List Task) : loadTasks (saveTasks ts) = ts := by
  simp [loadTasks, saveTasks, parseTasks, stringifyTasks, parseTasksChars_stringify]


theorem toDigitsCore_length_mono (b : Nat) :
    ∀ (fuel n : Nat) (ds : List Char), ds.length ≤ (Nat.toDigitsCore b fuel n ds).length := by
  intro fuel
  induction fuel with
  | zero => intro n ds; simp [Nat.toDigitsCore]
  | succ f ih =>
    intro n ds
    rw [Nat.toDigitsCore]
    split
    · simp
    · exact Nat.le_trans (by simp) (ih (n / b) (Nat.digitChar (n % b) :: ds))

theorem toDigitsCore_length_pos (b f n : Nat) (ds : List Char) :
    ds.length + 1 ≤ (Nat.toDigitsCore b (f + 1) n ds).length := by
  rw [Nat.toDigitsCore]
  split
  · simp
  · exact Nat.le_trans (by simp) (toDigitsCore_length_mono b f (n / b) (Nat.digitChar (n % b) :: ds))

theorem repr_ne_empty (n : Nat) : Nat.repr n ≠ "" := by
  have h := toDigitsCore_length_pos 10 n n []
  intro hEq
  have : (Nat.repr n).data = [] := by rw [hEq]
  rw [Nat.repr, Nat.toDigits] at this
  simp [List.asString] at this
  rw [this] at h
  simp at h

theorem append_ne_empty (a b : String) (hb : b ≠ "") : String.append a b ≠ "" := by
  intro h
  apply hb
  have hd := congrArg String.data h
  rw [show String.append a b = a ++ b from rfl, String.data_append] at hd
  have hb2 : b.data = [] := (List.append_eq_nil.mp (by simpa using hd)).2
  exact String.ext (by simpa using hb2)

theorem toISOString_ne_empty (ms : Nat) : toISOString ms ≠ "" := by
  rw [toISOString]
  exact append_ne_empty _ _ (append_ne_empty _ _ (append_ne_empty _ _ (by decide)))


theorem find?_eq_some_split {α : Type} {p : α → Bool} :
    ∀ {l : List α} {a : α}, l.find? p = some a →
      ∃ pre post, l = pre ++ a :: post ∧ p a = true ∧ ∀ u ∈ pre, p u = false := by
  intro l
  induction l with
  | nil => intro a h; simp [List.find?] at h
  | cons x l ih =>
    intro a h
    rw [List.find?_cons] at h
    by_cases hx : p x = true
    · rw [hx] at h
      simp at h
      subst h
      exact ⟨[], l, by simp, hx, by simp⟩
    · have hx2 : p x = false := by simp at hx; exact hx
      rw [hx2] at h
      simp at h
      obtain ⟨pre, post, hl, hp, hpre⟩ := ih h
      exact ⟨x :: pre, post, by simp [hl], hp, by
        intro u hu
        rcases List.mem_cons.mp hu with h1 | h2
        · subst h1; exact hx2
        · exact hpre u h2⟩

theorem find?_append_cons {α : Type} {p : α → Bool} (pre : List α) {a : α} (post : List α)
    (hpre : ∀ u ∈ pre, p u = false) (ha : p a = true) :
    (pre ++ a :: post).find? p = some a := by
  induction pre with
  | nil => simp [List.find?_cons, ha]
  | cons x pre ih =>
    have hx : p x = false := hpre x (by simp)
    simp only [List.cons_append, List.find?_cons, hx]
    exact ih (fun u hu => hpre u (by simp [hu]))

theorem completeFirst_split (id : String) (pre : List Task) (t : Task) (post : List Task)
    (hpre : ∀ u ∈ pre, (u.id == id) = false) (ht : (t.id == id) = true) :
    completeFirst id (pre ++ t :: post) = pre ++ { t with completed := true } :: post := by
  induction pre with
  | nil => simp [completeFirst, ht]
  | cons x pre ih =>
    have hx : (x.id == id) = false := hpre x (by simp)
    simp only [List.cons_append, completeFirst, hx]
    simp only [Bool.false_eq_true, if_false, List.append_eq]
    rw [ih (fun u hu => hpre u (by simp [hu]))]

theorem removeFirst_split (id : String) (pre : List Task) (t : Task) (post : List Task)
    (hpre : ∀ u ∈ pre, (u.id == id) = false) (ht : (t.id == id) = true) :
    removeFirst id (pre ++ t :: post) = pre ++ post := by
  induction pre with
  | nil => simp [removeFirst, ht]
  | cons x pre ih =>
    have hx : (x.id == id) = false := hpre x (by simp)
    simp only [List.cons_append, removeFirst, hx]
    simp only [Bool.false_eq_true, if_false, List.append_eq]
    rw [ih (fun u hu => hpre u (by simp [hu]))]


theorem notfound_ops (id : String) (file : Option String)
    (h : ∀ t ∈ listTasks file, (t.id == id) = false) :
    getTask id file = none ∧
    completeTask id file = (none, file) ∧
    deleteTask id file = (none, file) := by
  have hf : (loadTasks file).find? (fun t => t.id == id) = none := by
    rw [List.find?_eq_none]
    intro x hx
    simp [h x hx]
  refine ⟨?_, ?_, ?_⟩
  · rw [getTask, hf]
  · simp [completeTask, hf]
  · simp [deleteTask, hf]

/-- C2: for every non-empty title and every prior collection, `createTask`
returns a record with `completed = false`, a non-empty `id`, a non-empty
`createdAt` and the given title, appends exactly that record to the end of
the loaded collection, persists it, and the record appears in
`listTasks()` afterwards. -/
theorem C2_create_spec (now : Nat) (title : String) (file : Option String)
    (h : title ≠ "") :
    (createTask now title file).1.completed = false ∧
    (createTask now title file).1.id ≠ "" ∧
    (createTask now title file).1.createdAt ≠ "" ∧
    (createTask now title file).1.title = title ∧
    listTasks (createTask now title file).2 =
      listTasks file ++ [(createTask now title file).1] ∧
    (createTask now title file).1 ∈ listTasks (createTask now title file).2 := by
  have hsave : listTasks (createTask now title file).2 =
      listTasks file ++ [(createTask now title file).1] := by
    show listTasks (saveTasks (loadTasks file ++ [_])) = _
    rw [listTasks, loadTasks_saveTasks, listTasks]
    rfl
  refine ⟨rfl, repr_ne_empty now, toISOString_ne_empty now, rfl, hsave, ?_⟩
  rw [hsave]
  simp

/-- Witness for C2 at `now = 0`, `title = "Buy milk"`, an absent file. -/
theorem C2_create_spec_witness :
    ("Buy milk" ≠ "") ∧
    ((createTask 0 "Buy milk" none).1.completed = false ∧
     (createTask 0 "Buy milk" none).1.id ≠ "" ∧
     (createTask 0 "Buy milk" none).1.createdAt ≠ "" ∧
     (createTask 0 "Buy milk" none).1.title = "Buy milk" ∧
     listTasks (createTask 0 "Buy milk" none).2 =
       listTasks none ++ [(createTask 0 "Buy milk" none).1] ∧
     (createTask 0 "Buy milk" none).1 ∈ listTasks (createTask 0 "Buy milk" none).2) :=
  ⟨by decide, C2_create_spec 0 "Buy milk" none (by decide)⟩

/-- C3: `getTask`, `completeTask` and `deleteTask` on an id matching no
task return a not-found result (`none`) and leave the file untouched. -/
theorem C3_notfound_no_write (id : String) (file : Option String)
    (h : ∀ t ∈ listTasks file, (t.id == id) = false) :
    getTask id file = none ∧
    completeTask id file = (none, file) ∧
    deleteTask id file = (none, file) :=
  notfound_ops id file h

/-- Witness for C3 on a one-task store and a fresh id. -/
theorem C3_notfound_no_write_witness :
    (∀ t ∈ listTasks (saveTasks [⟨"1", "a", false, "d"⟩]), (t.id == "2") = false) ∧
    (getTask "2" (saveTasks [⟨"1", "a", false, "d"⟩]) = none ∧
     completeTask "2" (saveTasks [⟨"1", "a", false, "d"⟩]) =
       (none, saveTasks [⟨"1", "a", false, "d"⟩]) ∧
     deleteTask "2" (saveTasks [⟨"1", "a", false, "d"⟩]) =
       (none, saveTasks [⟨"1", "a", false, "d"⟩])) :=
  ⟨by decide, C3_notfound_no_write "2" (saveTasks [⟨"1", "a", false, "d"⟩]) (by decide)⟩

/-- C6: `loadTasks` returns `[]` when the file does not exist, and when
the file exists but its contents fail to parse it returns `[]` instead of
propagating the error. -/
theorem C6_load_failsoft :
    loadTasks none = [] ∧
    ∀ s : String, parseTasks s = none → loadTasks (some s) = [] := by
  refine ⟨rfl, ?_⟩
  intro s hs
  simp [loadTasks, hs]

/-- Witness for C6 on a concrete malformed file. -/
theorem C6_load_failsoft_witness :
    parseTasks "not json" = none ∧ loadTasks (some "not json") = [] :=
  ⟨by decide, C6_load_failsoft.2 "not json" (by decide)⟩

/-- C7: saving any collection and loading it back yields the same
collection, field-by-field and order-preserved. -/
theorem C7_save_load_roundtrip (ts : List Task) : loadTasks (saveTasks ts) = ts :=
  loadTasks_saveTasks ts


/-- C4: `completeTask` on a present id sets the first matching task's
`completed` flag to `true` and returns the updated record; a second call
on the same id succeeds again, returns the same completed record, and
leaves the store exactly as after the first call. -/
theorem C4_complete_idempotent (id : String) (file : Option String) (t : Task)
    (h : (listTasks file).find? (fun u => u.id == id) = some t) :
    (completeTask id file).1 = some { t with completed := true } ∧
    completeTask id (completeTask id file).2 =
      ((completeTask id file).1, (completeTask id file).2) := by
  obtain ⟨pre, post, hl, hp, hpre⟩ := find?_eq_some_split h
  have hload : loadTasks file = pre ++ t :: post := hl
  have hfind2 : (pre ++ t :: post).find? (fun u => u.id == id) = some t :=
    find?_append_cons pre post hpre hp
  have hcf : completeFirst id (pre ++ t :: post) =
      pre ++ { t with completed := true } :: post :=
    completeFirst_split id pre t post hpre hp
  have h1 : completeTask id file =
      (some { t with completed := true },
        saveTasks (pre ++ { t with completed := true } :: post)) := by
    simp [completeTask, hload, hfind2, hcf]
  have hp2 : (({ t with completed := true } : Task).id == id) = true := hp
  have hload2 : loadTasks (saveTasks (pre ++ { t with completed := true } :: post)) =
      pre ++ { t with completed := true } :: post := loadTasks_saveTasks _
  have hfind3 : (pre ++ { t with completed := true } :: post).find?
      (fun u => u.id == id) = some { t with completed := true } :=
    find?_append_cons pre post hpre hp2
  have hcf2 : completeFirst id (pre ++ { t with completed := true } :: post) =
      pre ++ { t with completed := true } :: post :=
    completeFirst_split id pre { t with completed := true } post hpre hp2
  have h2 : completeTask id (saveTasks (pre ++ { t with completed := true } :: post)) =
      (some { t with completed := true },
        saveTasks (pre ++ { t with completed := true } :: post)) := by
    simp [completeTask, hload2, hfind3, hcf2]
  rw [h1]
  exact ⟨rfl, h2⟩

/-- Witness for C4 on a one-task store. -/
theorem C4_complete_idempotent_witness :
    ((listTasks (saveTasks [⟨"1", "a", false, "d"⟩])).find? (fun u => u.id == "1") =
      some ⟨"1", "a", false, "d"⟩) ∧
    ((completeTask "1" (saveTasks [⟨"1", "a", false, "d"⟩])).1 =
      some ⟨"1", "a", true, "d"⟩ ∧
     completeTask "1" (completeTask "1" (saveTasks [⟨"1", "a", false, "d"⟩])).2 =
       ((completeTask "1" (saveTasks [⟨"1", "a", false, "d"⟩])).1,
        (completeTask "1" (saveTasks [⟨"1", "a", false, "d"⟩])).2)) :=
  ⟨by decide, C4_complete_idempotent "1" (saveTasks [⟨"1", "a", false, "d"⟩])
    ⟨"1", "a", false, "d"⟩ (by decide)⟩

/-- C5: `deleteTask` on a present id removes exactly the first matching
record: the result is the collection with that one record removed, the
length drops by one, and if the id occurred exactly once a subsequent
`getTask` returns not-found. -/
theorem C5_delete_removes_first (id : String) (file : Option String) (t : Task)
    (h : (listTasks file).find? (fun u => u.id == id) = some t) :
    ∃ pre post,
      listTasks file = pre ++ t :: post ∧
      (∀ u ∈ pre, (u.id == id) = false) ∧
      (deleteTask id file).1 = some t ∧
      listTasks (deleteTask id file).2 = pre ++ post ∧
      (listTasks (deleteTask id file).2).length + 1 = (listTasks file).length ∧
      ((listTasks file).countP (fun u => u.id == id) = 1 →
        getTask id (deleteTask id file).2 = none) := by
  obtain ⟨pre, post, hl, hp, hpre⟩ := find?_eq_some_split h
  have hload : loadTasks file = pre ++ t :: post := hl
  have hfind2 : (pre ++ t :: post).find? (fun u => u.id == id) = some t :=
    find?_append_cons pre post hpre hp
  have hrm : removeFirst id (pre ++ t :: post) = pre ++ post :=
    removeFirst_split id pre t post hpre hp
  have hdel : deleteTask id file = (some t, saveTasks (pre ++ post)) := by
    simp [deleteTask, hload, hfind2, hrm]
  have hlist : listTasks (deleteTask id file).2 = pre ++ post := by
    rw [hdel]
    exact loadTasks_saveTasks _
  refine ⟨pre, post, hl, hpre, by rw [hdel], hlist, ?_, ?_⟩
  · rw [hlist, hl]
    simp only [List.length_append, List.length_cons]
    omega
  · intro hc
    have hcount : (pre ++ t :: post).countP (fun u => u.id == id) = 1 := by
      rw [← hl]
      exact hc
    rw [List.countP_append, List.countP_cons] at hcount
    have hpre0 : pre.countP (fun u => u.id == id) = 0 :=
      List.countP_eq_zero.mpr (fun a ha => by simp [hpre a ha])
    have hpost0 : ∀ a ∈ post, ¬ a.id = id := by
      rw [hpre0, hp] at hcount
      simp at hcount
      exact hcount
    rw [getTask, hdel, loadTasks_saveTasks, List.find?_eq_none]
    intro x hx
    rcases List.mem_append.mp hx with h1 | h2
    · simp [hpre x h1]
    · simp [hpost0 x h2]

/-- Witness for C5 on a one-task store. -/
theorem C5_delete_removes_first_witness :
    ((listTasks (saveTasks [⟨"1", "a", false, "d"⟩])).find? (fun u => u.id == "1") =
      some ⟨"1", "a", false, "d"⟩) ∧
    (∃ pre post,
      listTasks (saveTasks [⟨"1", "a", false, "d"⟩]) = pre ++ ⟨"1", "a", false, "d"⟩ :: post ∧
      (∀ u ∈ pre, (u.id == "1") = false) ∧
      (deleteTask "1" (saveTasks [⟨"1", "a", false, "d"⟩])).1 = some ⟨"1", "a", false, "d"⟩ ∧
      listTasks (deleteTask "1" (saveTasks [⟨"1", "a", false, "d"⟩])).2 = pre ++ post ∧
      (listTasks (deleteTask "1" (saveTasks [⟨"1", "a", false, "d"⟩])).2).length + 1 =
        (listTasks (saveTasks [⟨"1", "a", false, "d"⟩])).length ∧
      ((listTasks (saveTasks [⟨"1", "a", false, "d"⟩])).countP (fun u => u.id == "1") = 1 →
        getTask "1" (deleteTask "1" (saveTasks [⟨"1", "a", false, "d"⟩])).2 = none)) :=
  ⟨by decide, C5_delete_removes_first "1" (saveTasks [⟨"1", "a", false, "d"⟩])
    ⟨"1", "a", false, "d"⟩ (by decide)⟩

/-- C8: id matching is exact string equality and the first match in
storage order wins, even when several tasks share the id: `getTask`
returns the first match, `completeTask` updates only the first match, and
`deleteTask` removes only the first match. -/
theorem C8_exact_first_match (id : String) (file : Option String)
    (pre post : List Task) (t : Task)
    (hl : listTasks file = pre ++ t :: post)
    (ht : (t.id == id) = true)
    (hpre : ∀ u ∈ pre, (u.id == id) = false) :
    getTask id file = some t ∧
    completeTask id file =
      (some { t with completed := true },
       saveTasks (pre ++ { t with completed := true } :: post)) ∧
    deleteTask id file = (some t, saveTasks (pre ++ post)) := by
  have hload : loadTasks file = pre ++ t :: post := hl
  have hfind2 : (pre ++ t :: post).find? (fun u => u.id == id) = some t :=
    find?_append_cons pre post hpre ht
  refine ⟨?_, ?_, ?_⟩
  · rw [getTask, hload, hfind2]
  · simp [completeTask, hload, hfind2, completeFirst_split id pre t post hpre ht]
  · simp [deleteTask, hload, hfind2, removeFirst_split id pre t post hpre ht]

/-- Witness for C8 on a store holding two tasks with the same id: the
first one (in storage order) is returned, completed, and removed. -/
theorem C8_exact_first_match_witness :
    (listTasks (saveTasks [⟨"1", "a", false, "c"⟩, ⟨"1", "b", false, "d"⟩]) =
      [] ++ ⟨"1", "a", false, "c"⟩ :: [⟨"1", "b", false, "d"⟩]) ∧
    ((⟨"1", "a", false, "c"⟩ : Task).id == "1") = true ∧
    (∀ u ∈ ([] : List Task), (u.id == "1") = false) ∧
    (getTask "1" (saveTasks [⟨"1", "a", false, "c"⟩, ⟨"1", "b", false, "d"⟩]) =
      some ⟨"1", "a", false, "c"⟩ ∧
     completeTask "1" (saveTasks [⟨"1", "a", false, "c"⟩, ⟨"1", "b", false, "d"⟩]) =
       (some ⟨"1", "a", true, "c"⟩,
        saveTasks ([] ++ ⟨"1", "a", true, "c"⟩ :: [⟨"1", "b", false, "d"⟩])) ∧
     deleteTask "1" (saveTasks [⟨"1", "a", false, "c"⟩, ⟨"1", "b", false, "d"⟩]) =
       (some ⟨"1", "a", false, "c"⟩, saveTasks ([] ++ [⟨"1", "b", false, "d"⟩]))) :=
  ⟨by decide, by decide, by decide,
   C8_exact_first_match "1" (saveTasks [⟨"1", "a", false, "c"⟩, ⟨"1", "b", false, "d"⟩])
     [] [⟨"1", "b", false, "d"⟩] ⟨"1", "a", false, "c"⟩ (by decide) (by decide) (by decide)⟩

/-- C10: `completeTask` on a present id changes only the `completed`
field of the first matching task: its other fields are unchanged, every
other task is unchanged, and the collection's length and order are
unchanged. -/
theorem C10_complete_frame (id : String) (file : Option String)
    (pre post : List Task) (t : Task)
    (hl : listTasks file = pre ++ t :: post)
    (ht : (t.id == id) = true)
    (hpre : ∀ u ∈ pre, (u.id == id) = false) :
    listTasks (completeTask id file).2 = pre ++ { t with completed := true } :: post ∧
    ({ t with completed := true } : Task).id = t.id ∧
    ({ t with completed := true } : Task).title = t.title ∧
    ({ t with completed := true } : Task).createdAt = t.createdAt ∧
    (listTasks (completeTask id file).2).length = (listTasks file).length := by
  have hload : loadTasks file = pre ++ t :: post := hl
  have hfind2 : (pre ++ t :: post).find? (fun u => u.id == id) = some t :=
    find?_append_cons pre post hpre ht
  have hcomp : completeTask id file =
      (some { t with completed := true },
        saveTasks (pre ++ { t with completed := true } :: post)) := by
    simp [completeTask, hload, hfind2, completeFirst_split id pre t post hpre ht]
  have hlist : listTasks (completeTask id file).2 =
      pre ++ { t with completed := true } :: post := by
    rw [hcomp]
    exact loadTasks_saveTasks _
  refine ⟨hlist, rfl, rfl, rfl, ?_⟩
  rw [hlist, hl]
  simp

/-- Witness for C10 on a two-task store (second task untouched). -/
theorem C10_complete_frame_witness :
    (listTasks (saveTasks [⟨"1", "a", false, "c"⟩, ⟨"2", "b", false, "d"⟩]) =
      [] ++ ⟨"1", "a", false, "c"⟩ :: [⟨"2", "b", false, "d"⟩]) ∧
    ((⟨"1", "a", false, "c"⟩ : Task).id == "1") = true ∧
    (∀ u ∈ ([] : List Task), (u.id == "1") = false) ∧
    (listTasks (completeTask "1" (saveTasks [⟨"1", "a", false, "c"⟩, ⟨"2", "b", false, "d"⟩])).2 =
      [] ++ ⟨"1", "a", true, "c"⟩ :: [⟨"2", "b", false, "d"⟩] ∧
     (⟨"1", "a", true, "c"⟩ : Task).id = (⟨"1", "a", false, "c"⟩ : Task).id ∧
     (⟨"1", "a", true, "c"⟩ : Task).title = (⟨"1", "a", false, "c"⟩ : Task).title ∧
     (⟨"1", "a", true, "c"⟩ : Task).createdAt = (⟨"1", "a", false, "c"⟩ : Task).createdAt ∧
     (listTasks (completeTask "1"
        (saveTasks [⟨"1", "a", false, "c"⟩, ⟨"2", "b", false, "d"⟩])).2).length =
       (listTasks (saveTasks [⟨"1", "a", false, "c"⟩, ⟨"2", "b", false, "d"⟩])).length) :=
  ⟨by decide, by decide, by decide,
   C10_complete_frame "1" (saveTasks [⟨"1", "a", false, "c"⟩, ⟨"2", "b", false, "d"⟩])
     [] [⟨"2", "b", false, "d"⟩] ⟨"1", "a", false, "c"⟩ (by decide) (by decide) (by decide)⟩


/-- C1 (counterexample): on the tool-invocation adapter, a `create_task`
call whose `title` is the empty string is NOT rejected: the response
carries no error flag and a record is created (the stored collection goes
from empty to length one), contradicting the claim that every adapter
rejects an empty title without creating a record. -/
theorem C1_counterexample :
    (callTool 0 (ToolCall.createTask "") none).1.isError = false ∧
    listTasks (callTool 0 (ToolCall.createTask "") none).2 ≠ listTasks none ∧
    (listTasks (callTool 0 (ToolCall.createTask "") none).2).length = 1 := by
  refine ⟨rfl, ?_, ?_⟩
  · have h : listTasks (callTool 0 (ToolCall.createTask "") none).2 =
        [⟨Nat.repr 0, "", false, toISOString 0⟩] := by
      show listTasks (saveTasks _) = _
      exact loadTasks_saveTasks _
    rw [h]
    simp [listTasks, loadTasks]
  · have h : listTasks (callTool 0 (ToolCall.createTask "") none).2 =
        [⟨Nat.repr 0, "", false, toISOString 0⟩] := by
      show listTasks (saveTasks _) = _
      exact loadTasks_saveTasks _
    rw [h]
    rfl

/-- C1 (amended): the HTTP adapter rejects a missing or empty title with
a 400 validation error and no write; on the tool-invocation adapter only
a request with no arguments object at all short-circuits with an error —
a `create_task` call with an empty title reaches the Task API, creates a
record with the empty title, and returns a success (non-error)
response. -/
theorem C1_amended_validation :
    (∀ now file, httpCreateTask now none file =
      (⟨400, RespBody.failure "Title is required"⟩, file)) ∧
    (∀ now file, httpCreateTask now (some "") file =
      (⟨400, RespBody.failure "Title is required"⟩, file)) ∧
    (∀ now file, handleToolRequest now none file =
      (⟨"No arguments provided", true⟩, file)) ∧
    (∀ now file, (callTool now (ToolCall.createTask "") file).1.isError = false ∧
      listTasks (callTool now (ToolCall.createTask "") file).2 =
        listTasks file ++ [⟨Nat.repr now, "", false, toISOString now⟩]) := by
  refine ⟨fun now file => rfl, fun now file => rfl, fun now file => rfl, fun now file => ?_⟩
  refine ⟨rfl, ?_⟩
  show listTasks (saveTasks (loadTasks file ++ [_])) = _
  rw [listTasks, loadTasks_saveTasks, listTasks]

/-- C9: the HTTP adapter's status/body mapping: list is 200 with
`success, data, count`; create is 201 with the new record, or 400 with
`"Title is required"` when the title is missing or empty; get, complete
and delete on an id matching nothing are 404 with `"Task not found"` and
no write. -/
theorem C9_http_mapping :
    (∀ file, httpListTasks file =
      (⟨200, RespBody.successList (listTasks file) (listTasks file).length⟩, file)) ∧
    (∀ now title file, title ≠ "" →
      httpCreateTask now (some title) file =
        (⟨201, RespBody.successTask (createTask now title file).1⟩,
         (createTask now title file).2)) ∧
    (∀ now file, httpCreateTask now none file =
      (⟨400, RespBody.failure "Title is required"⟩, file)) ∧
    (∀ now file, httpCreateTask now (some "") file =
      (⟨400, RespBody.failure "Title is required"⟩, file)) ∧
    (∀ id file, (∀ u ∈ listTasks file, (u.id == id) = false) →
      httpGetTask id file = (⟨404, RespBody.failure "Task not found"⟩, file) ∧
      httpCompleteTask id file = (⟨404, RespBody.failure "Task not found"⟩, file) ∧
      httpDeleteTask id file = (⟨404, RespBody.failure "Task not found"⟩, file)) := by
  refine ⟨fun file => rfl, ?_, fun now file => rfl, fun now file => rfl, ?_⟩
  · intro now title file htitle
    rw [httpCreateTask]
    rw [if_neg htitle]
  · intro id file h
    obtain ⟨hg, hc, hd⟩ := notfound_ops id file h
    refine ⟨?_, ?_, ?_⟩
    · rw [httpGetTask, hg]
    · rw [httpCompleteTask, hc]
    · rw [httpDeleteTask, hd]

/-- Witness for C9, discharging the two hypothesis-guarded parts at a
concrete title and an empty store. -/
theorem C9_http_mapping_witness :
    ("x" ≠ "" ∧
     httpCreateTask 0 (some "x") none =
       (⟨201, RespBody.successTask (createTask 0 "x" none).1⟩,
        (createTask 0 "x" none).2)) ∧
    ((∀ u ∈ listTasks none, (u.id == "z") = false) ∧
     httpGetTask "z" none = (⟨404, RespBody.failure "Task not found"⟩, none) ∧
     httpCompleteTask "z" none = (⟨404, RespBody.failure "Task not found"⟩, none) ∧
     httpDeleteTask "z" none = (⟨404, RespBody.failure "Task not found"⟩, none)) :=
  ⟨⟨by decide, C9_http_mapping.2.1 0 "x" none (by decide)⟩,
   ⟨by decide, C9_http_mapping.2.2.2.2 "z" none (by decide)⟩⟩

end TaskStore
